import Mathlib

/-!
# Verification of the knomi ingestion core

A shallow embedding, in Lean 4, of the core of the `knomi` document-ingestion
pipeline (`knomi/ingest/chunker.py`, `knomi/ingest/parser.py`,
`knomi/ingest/embedder.py`, `knomi/store/qdrant.py`, `knomi/ingest/pipeline.py`,
`knomi/config.py`), together with theorems settling the behavioural claims made
about it.

Conventions of the embedding:

* Python functions become Lean functions; a Python function that can raise is
  modelled with `Except` (or a `state × Option error` pair when the
  state left behind on an exception matters).
* External collaborators (the tiktoken tokenizer, the embedding backends, the
  Qdrant client, the filesystem, SHA-256) are parameters of the definitions:
  the logic of the repository is translated verbatim, the collaborators are
  universally quantified or instantiated with concrete test doubles.
* The `while` loop of the chunker is modelled with explicit fuel, so that its
  (non-)termination is itself a provable proposition: `none` marks a loop that
  never reaches its exit condition within any sufficient fuel.
-/

namespace Knomi

/-! ## Chunker (`knomi/ingest/chunker.py`)

`chunk_size` and `chunk_overlap` are token counts; the tokenizer
(`tiktoken.get_encoding(...)` in the source) is an external collaborator and
appears as an `enc`/`dec` parameter pair. -/

/-- The fixed metadata keys the chunker writes
(`source`, `doc_id`, `chunk_index`, `total_chunks`). -/
structure Metadata where
  source : String
  doc_id : String
  chunk_index : Nat
  total_chunks : Nat
  deriving Repr, DecidableEq

/-- Models `Chunk` from `chunker.py`: a text window plus its metadata dict. -/
structure Chunk where
  text : String
  metadata : Metadata
  deriving Repr, DecidableEq

/-- The `while i < len(tokens)` loop of `chunk` (chunker.py lines 76-79),
with explicit fuel: each iteration appends the window `tokens[i : i + size]`
and advances `i` by `step`.  `none` means the fuel ran out with the loop
condition still true — with fuel above `tokens.length` this happens exactly
when the loop diverges (possible only for `step = 0`). -/
def windowsLoop (tokens : List Nat) (size step : Nat) : Nat → Nat → Option (List (List Nat))
  | _, 0 => none
  | i, fuel + 1 =>
    if i < tokens.length then
      ((tokens.drop i).take size :: ·) <$> windowsLoop tokens size step (i + step) fuel
    else
      some []

/-- The window list built by the loop of `chunk`, with fuel `tokens.length + 1`,
which suffices whenever `step > 0`. -/
def windows (tokens : List Nat) (size step : Nat) : Option (List (List Nat)) :=
  windowsLoop tokens size step 0 (tokens.length + 1)

/-- Number of iterations of the loop started at `i`: the count of window
starts `i, i + step, i + 2*step, …` that are `< len`, i.e.
`⌈(len - i) / step⌉`. -/
def numWin (len i step : Nat) : Nat :=
  (len - i + step - 1) / step

/-- Models `chunk` from `chunker.py`: split `text` into overlapping token windows.
`enc`/`dec` stand for `encode`/`decode` of the tiktoken encoding.  The result
is `none` exactly when the sliding-window loop never terminates. -/
def chunk (enc : String → List Nat) (dec : List Nat → String)
    (text : String) (source : String) (doc_id : String)
    (chunk_size : Nat := 512) (chunk_overlap : Nat := 64) :
    Option (List Chunk) :=
  if text = "" then some []
  else
    let tokens := enc text
    if tokens.length ≤ chunk_size then
      some [⟨text, ⟨source, doc_id, 0, 1⟩⟩]
    else
      let step := chunk_size - chunk_overlap
      (windows tokens chunk_size step).map fun ws =>
        let total := ws.length
        ws.enum.map fun iw => ⟨dec iw.2, ⟨source, doc_id, iw.1, total⟩⟩

/-- With a positive step and enough fuel, the loop computes the closed-form
window list: window `k` is `tokens[i + k*step : i + k*step + size]`. -/
theorem windowsLoop_closed (tokens : List Nat) (size step : Nat) (hstep : 0 < step) :
    ∀ fuel i, tokens.length - i < fuel →
      windowsLoop tokens size step i fuel =
        some ((List.range (numWin tokens.length i step)).map fun k =>
          (tokens.drop (i + k * step)).take size) := by
  intro fuel
  induction fuel with
  | zero => intro i h; omega
  | succ fuel ih =>
    intro i h
    by_cases hi : i < tokens.length
    · have hrec := ih (i + step) (by omega)
      have hnum : numWin tokens.length i step = numWin tokens.length (i + step) step + 1 := by
        unfold numWin
        rcases le_or_lt (tokens.length - i) step with hle | hlt
        · have hx : tokens.length - i + step - 1 = (tokens.length - i - 1) + step := by omega
          have h0 : tokens.length - (i + step) = 0 := by omega
          rw [hx, Nat.add_div_right _ hstep, h0, Nat.div_eq_of_lt (by omega),
            Nat.div_eq_of_lt (by omega)]
        · have hsub : tokens.length - i + step - 1 =
              (tokens.length - (i + step) + step - 1) + step := by omega
          rw [hsub, Nat.add_div_right _ hstep]
      simp only [windowsLoop]
      rw [if_pos hi, hrec, hnum, List.range_succ_eq_map, List.map_cons, List.map_map]
      simp only [Option.map_eq_map, Option.map_some']
      congr 1
      congr 1
      · simp
      · congr 1
        funext k
        simp only [Function.comp_apply]
        congr 2
        rw [Nat.succ_mul]
        omega
    · simp only [windowsLoop]
      rw [if_neg hi]
      have h0 : numWin tokens.length i step = 0 := by
        unfold numWin
        have hli : tokens.length - i = 0 := by omega
        rw [hli]
        exact Nat.div_eq_of_lt (by omega)
      rw [h0]
      simp

/-- Closed form for `windows` when the step is positive. -/
theorem windows_eq (tokens : List Nat) (size step : Nat) (hstep : 0 < step) :
    windows tokens size step =
      some ((List.range (numWin tokens.length 0 step)).map fun k =>
        (tokens.drop (k * step)).take size) := by
  unfold windows
  rw [windowsLoop_closed tokens size step hstep (tokens.length + 1) 0 (by omega)]
  simp

/-- For a non-empty token list, the window count is `(len - 1) / step + 1`. -/
theorem numWin_zero_eq (len step : Nat) (hstep : 0 < step) (hlen : 0 < len) :
    numWin len 0 step = (len - 1) / step + 1 := by
  unfold numWin
  have hx : len - 0 + step - 1 = (len - 1) + step := by omega
  rw [hx, Nat.add_div_right _ hstep]

/-- Every window start `k * step` with `k < numWin` lies inside the token list. -/
theorem start_lt_of_lt_numWin (len step k : Nat) (hstep : 0 < step) (hlen : 0 < len)
    (hk : k < numWin len 0 step) : k * step < len := by
  rw [numWin_zero_eq len step hstep hlen] at hk
  have hk1 : k ≤ (len - 1) / step := by omega
  have h1 : k * step ≤ (len - 1) / step * step :=
    Nat.mul_le_mul_right step hk1
  have h2 : (len - 1) / step * step ≤ len - 1 := Nat.div_mul_le_self _ _
  omega

/-- The first window start at or beyond `numWin` lies outside the token list:
the loop exits right after the last in-range start. -/
theorem len_le_numWin_mul (len step : Nat) (hstep : 0 < step) (hlen : 0 < len) :
    len ≤ numWin len 0 step * step := by
  rw [numWin_zero_eq len step hstep hlen, Nat.succ_mul]
  have hdm : step * ((len - 1) / step) + (len - 1) % step = len - 1 :=
    Nat.div_add_mod (len - 1) step
  have hm : (len - 1) % step < step := Nat.mod_lt _ hstep
  have hc : step * ((len - 1) / step) = (len - 1) / step * step := Nat.mul_comm _ _
  omega

/-- Every token position `j` is covered by window `j / step`. -/
theorem pos_covered (len step j : Nat) (hstep : 0 < step) (hj : j < len) :
    j / step < numWin len 0 step ∧ j / step * step ≤ j ∧ j < j / step * step + step := by
  have hdm : step * (j / step) + j % step = j := Nat.div_add_mod j step
  have hm : j % step < step := Nat.mod_lt _ hstep
  have hc : step * (j / step) = j / step * step := Nat.mul_comm _ _
  refine ⟨?_, by omega, by omega⟩
  rw [numWin_zero_eq len step hstep (by omega)]
  have hmono : j / step ≤ (len - 1) / step := Nat.div_le_div_right (by omega)
  omega

/-- C8: For every input text and every configuration satisfying
`chunk_overlap < chunk_size`, the sliding-window loop of `chunk` terminates and
returns a finite list; the window starts are the successive multiples
`0, step, 2*step, …` of the positive step `chunk_size - chunk_overlap`, each
start below the token count, and the first start not generated is past the
token sequence. -/
theorem chunk_loop_terminates (enc : String → List Nat) (dec : List Nat → String)
    (text src id : String) (size ov : Nat) (hov : ov < size) :
    (chunk enc dec text src id size ov).isSome ∧
    0 < size - ov ∧
    (text ≠ "" → size < (enc text).length →
      windows (enc text) size (size - ov) =
        some ((List.range (numWin (enc text).length 0 (size - ov))).map fun k =>
          ((enc text).drop (k * (size - ov))).take size) ∧
      (∀ k, k < numWin (enc text).length 0 (size - ov) →
        k * (size - ov) < (enc text).length) ∧
      (enc text).length ≤ numWin (enc text).length 0 (size - ov) * (size - ov)) := by
  have hstep : 0 < size - ov := by omega
  refine ⟨?_, hstep, fun hne hlen => ⟨windows_eq _ _ _ hstep,
    fun k hk => start_lt_of_lt_numWin _ _ _ hstep (by omega) hk,
    len_le_numWin_mul _ _ hstep (by omega)⟩⟩
  simp only [chunk]
  by_cases hne : text = ""
  · rw [if_pos hne]; rfl
  · rw [if_neg hne]
    by_cases hle : (enc text).length ≤ size
    · rw [if_pos hle]; rfl
    · rw [if_neg hle, windows_eq _ _ _ hstep]
      rfl

/-- C8 witness: a concrete run of the theorem at `size = 3`, `ov = 1`,
char-level tokenizer, an 8-token text. -/
theorem chunk_loop_terminates_witness :
    (chunk (fun s => s.toList.map Char.toNat) (fun l => (l.map Char.ofNat).asString)
      "abcdefgh" "f.txt" "d" 3 1).isSome ∧
    0 < 3 - 1 ∧
    ("abcdefgh" ≠ "" → 3 < (("abcdefgh".toList.map Char.toNat)).length →
      windows ("abcdefgh".toList.map Char.toNat) 3 (3 - 1) =
        some ((List.range (numWin ("abcdefgh".toList.map Char.toNat).length 0 (3 - 1))).map
          fun k => (("abcdefgh".toList.map Char.toNat).drop (k * (3 - 1))).take 3) ∧
      (∀ k, k < numWin ("abcdefgh".toList.map Char.toNat).length 0 (3 - 1) →
        k * (3 - 1) < ("abcdefgh".toList.map Char.toNat).length) ∧
      ("abcdefgh".toList.map Char.toNat).length ≤
        numWin ("abcdefgh".toList.map Char.toNat).length 0 (3 - 1) * (3 - 1)) :=
  chunk_loop_terminates (fun s => s.toList.map Char.toNat)
    (fun l => (l.map Char.ofNat).asString) "abcdefgh" "f.txt" "d" 3 1 (by decide)

/-- C9: `chunk` on the empty string is the empty list, and a non-empty text of
at most `chunk_size` tokens yields exactly one chunk carrying the whole text,
`chunk_index = 0`, `total_chunks = 1`. -/
theorem chunk_empty_and_short_text (enc : String → List Nat) (dec : List Nat → String)
    (src id : String) (size ov : Nat) (text : String)
    (hne : text ≠ "") (hle : (enc text).length ≤ size) :
    chunk enc dec "" src id size ov = some [] ∧
    chunk enc dec text src id size ov = some [⟨text, ⟨src, id, 0, 1⟩⟩] := by
  constructor
  · simp [chunk]
  · simp only [chunk]
    rw [if_neg hne, if_pos hle]

/-- C9 witness: concrete evaluation with the char-level tokenizer on `"ab"`. -/
theorem chunk_empty_and_short_text_witness :
    chunk (fun s => s.toList.map Char.toNat) (fun l => (l.map Char.ofNat).asString)
      "" "x.txt" "abc" 512 64 = some [] ∧
    chunk (fun s => s.toList.map Char.toNat) (fun l => (l.map Char.ofNat).asString)
      "ab" "x.txt" "abc" 512 64 = some [⟨"ab", ⟨"x.txt", "abc", 0, 1⟩⟩] :=
  chunk_empty_and_short_text (fun s => s.toList.map Char.toNat)
    (fun l => (l.map Char.ofNat).asString) "x.txt" "abc" 512 64 "ab"
    (by decide) (by decide)

/-- C3: when the token count exceeds `chunk_size` (and the step
`chunk_size - chunk_overlap` is positive), `chunk` produces the windows
starting at successive multiples of the step, whose union covers every token
position with no gaps; chunk indices are exactly `0 .. total-1` in order and
the `total_chunks` of every chunk is the length of the list. -/
theorem chunk_sliding_window_coverage (enc : String → List Nat) (dec : List Nat → String)
    (src id : String) (size ov : Nat) (text : String)
    (hov : ov < size) (hne : text ≠ "") (hlen : size < (enc text).length) :
    ∃ cs, chunk enc dec text src id size ov = some cs ∧
      0 < cs.length ∧
      (∀ k, (hk : k < cs.length) →
        (cs.get ⟨k, hk⟩).text = dec (((enc text).drop (k * (size - ov))).take size) ∧
        (cs.get ⟨k, hk⟩).metadata.chunk_index = k ∧
        (cs.get ⟨k, hk⟩).metadata.total_chunks = cs.length) ∧
      (∀ j, j < (enc text).length →
        ∃ k, k < cs.length ∧ k * (size - ov) ≤ j ∧ j < k * (size - ov) + size) := by
  have hstep : 0 < size - ov := by omega
  have hlen0 : 0 < (enc text).length := by omega
  have hchunk : chunk enc dec text src id size ov =
      some (((List.range (numWin (enc text).length 0 (size - ov))).map
          (fun k => ((enc text).drop (k * (size - ov))).take size)).enum.map
        (fun iw => ⟨dec iw.2, ⟨src, id, iw.1,
          ((List.range (numWin (enc text).length 0 (size - ov))).map
            (fun k => ((enc text).drop (k * (size - ov))).take size)).length⟩⟩)) := by
    simp only [chunk]
    rw [if_neg hne, if_neg (not_le.mpr hlen), windows_eq _ _ _ hstep]
    rfl
  refine ⟨_, hchunk, ?_, ?_, ?_⟩
  · simp only [List.length_map, List.enum_length, List.length_range]
    rw [numWin_zero_eq _ _ hstep hlen0]
    exact Nat.succ_pos _
  · intro k hk
    simp [List.get_eq_getElem]
  · intro j hj
    obtain ⟨hk, hle2, hlt2⟩ := pos_covered (enc text).length (size - ov) j hstep hj
    refine ⟨j / (size - ov), by simpa using hk, hle2, by omega⟩

/-- C3 witness: concrete evaluation at `size = 3`, `ov = 1`, an 8-token text. -/
theorem chunk_sliding_window_coverage_witness :
    ∃ cs, chunk (fun s => s.toList.map Char.toNat) (fun l => (l.map Char.ofNat).asString)
        "abcdefgh" "f.txt" "d" 3 1 = some cs ∧
      0 < cs.length ∧
      (∀ k, (hk : k < cs.length) →
        (cs.get ⟨k, hk⟩).text =
          (fun l => (l.map Char.ofNat).asString)
            ((("abcdefgh".toList.map Char.toNat).drop (k * (3 - 1))).take 3) ∧
        (cs.get ⟨k, hk⟩).metadata.chunk_index = k ∧
        (cs.get ⟨k, hk⟩).metadata.total_chunks = cs.length) ∧
      (∀ j, j < ("abcdefgh".toList.map Char.toNat).length →
        ∃ k, k < cs.length ∧ k * (3 - 1) ≤ j ∧ j < k * (3 - 1) + 3) :=
  chunk_sliding_window_coverage (fun s => s.toList.map Char.toNat)
    (fun l => (l.map Char.ofNat).asString) "f.txt" "d" 3 1 "abcdefgh"
    (by decide) (by decide) (by decide)

/-! ## Parser (`knomi/ingest/parser.py`)

The format extractors for PDF/DOCX/HTML call external libraries inside a
`try/except Exception` that turns any failure into the empty string; they are
parameters here.  `_parse_text`, in contrast, reads the file itself and
catches only `UnicodeDecodeError`. -/

/-- Python exception classes that the embedded code can raise.
`nonTermination` is not an exception: it marks a loop that never exits. -/
inductive PyErr
  | osError
  | valueError
  | attributeError
  | nonTermination
  deriving Repr, DecidableEq

/-- The character class of the Python regex `\s` (ASCII range):
space, tab, newline, carriage return, vertical tab, form feed. -/
def isPyWs (c : Char) : Bool :=
  c = ' ' || c = '\t' || c = '\n' || c = '\r' || c.toNat = 11 || c.toNat = 12

/-- Models `re.sub(r"-\n", "", text)`: join words hyphenated across a line break. -/
def dehyph : List Char → List Char
  | '-' :: '\n' :: rest => dehyph rest
  | c :: rest => c :: dehyph rest
  | [] => []

/-- Models `re.sub(r"\s+", " ", text)`: collapse every whitespace run to one space.
The boolean argument records whether the previous character was whitespace
(a run already emitted its single space). -/
def collapseWsAux : Bool → List Char → List Char
  | _, [] => []
  | prevWs, c :: rest =>
    if isPyWs c then
      if prevWs then collapseWsAux true rest
      else ' ' :: collapseWsAux true rest
    else c :: collapseWsAux false rest

def collapseWs (l : List Char) : List Char := collapseWsAux false l

/-- Models `str.strip()`: drop leading and trailing whitespace. -/
def pyStrip (l : List Char) : List Char :=
  ((l.dropWhile isPyWs).reverse.dropWhile isPyWs).reverse

/-- Models `_normalise` from `parser.py`: de-hyphenate line breaks, collapse
whitespace, strip. -/
def normalise (s : String) : String :=
  (pyStrip (collapseWs (dehyph s.toList))).asString

/-- What a file looks like to `Path.read_text`: absent (or otherwise
unreadable — `OSError`), valid UTF-8, or bytes that fail UTF-8 decoding but
(as any byte string) decode under latin-1. -/
inductive PyFile
  | missing
  | utf8 (content : String)
  | nonUtf8 (latin1 : String)
  deriving Repr, DecidableEq

def FileSystem := String → PyFile

/-- Models `pathlib.PurePath.suffix` of the final path component: the part from the
last dot on, provided that dot is neither the first nor the last character of
the component. -/
def pathSuffix (p : String) : String :=
  let name := (p.toList.reverse.takeWhile (· != '/')).reverse
  let tail := (name.reverse.takeWhile (· != '.')).reverse
  if tail.length = name.length then ""
  else
    let i := name.length - tail.length - 1
    if 0 < i ∧ i < name.length - 1 then ('.' :: tail).asString else ""

/-- Lowercasing, as `str.lower()` on the suffix. -/
def lowerStr (s : String) : String := (s.toList.map Char.toLower).asString

/-- Models `_parse_text`: `path.read_text(encoding="utf-8")`, falling back to
latin-1 only on `UnicodeDecodeError`.  An `OSError` (missing or unreadable
file) is not caught and propagates. -/
def parse_text (fs : FileSystem) (path : String) : Except PyErr String :=
  match fs path with
  | .missing => .error .osError
  | .utf8 content => .ok (normalise content)
  | .nonUtf8 latin1 => .ok (normalise latin1)

/-- Models `_parse_pdf`: the whole PyMuPDF extraction sits in a
`try/except Exception: return ""`; `fitz` is the external extractor. -/
def parse_pdf (fitz : String → Except Unit String) (path : String) : Except PyErr String :=
  match fitz path with
  | .error _ => .ok ""
  | .ok raw => .ok (normalise raw)

/-- Models `_parse_docx`: python-docx extraction inside `try/except Exception`. -/
def parse_docx (docx : String → Except Unit String) (path : String) : Except PyErr String :=
  match docx path with
  | .error _ => .ok ""
  | .ok raw => .ok (normalise raw)

/-- Models `_parse_html`: file read plus BeautifulSoup extraction, all inside
`try/except Exception` (the read is inside the outer try). -/
def parse_html (html : String → Except Unit String) (path : String) : Except PyErr String :=
  match html path with
  | .error _ => .ok ""
  | .ok raw => .ok (normalise raw)

/-- Models `parse` from `parser.py`: dispatch on the lowercased extension; unknown
extensions yield the empty string. -/
def parse (fs : FileSystem) (fitz docx html : String → Except Unit String)
    (path : String) : Except PyErr String :=
  let suffix := lowerStr (pathSuffix path)
  if suffix = ".pdf" then parse_pdf fitz path
  else if suffix = ".md" then parse_text fs path
  else if suffix = ".txt" then parse_text fs path
  else if suffix = ".docx" then parse_docx docx path
  else if suffix = ".html" then parse_html html path
  else .ok ""

/-- C2 (refuted): `parse` does raise.  On a `.txt` path whose file is missing
or unreadable, `_parse_text` catches only `UnicodeDecodeError`, so the
`OSError` from `read_text` propagates out of `parse` instead of becoming the
empty string. -/
theorem parse_raises_on_unreadable_text_file :
    parse (fun _ => PyFile.missing) (fun _ => .error ()) (fun _ => .error ())
      (fun _ => .error ()) "missing.txt" = .error .osError := by
  rfl

/-! ## Embedder (`knomi/ingest/embedder.py`)

The backend `embed` method is a parameter (`List String → List (List Float)`).
`embed_chunks` partitions into batches and, for `workers > 1` with several
batches, dispatches them to a thread pool via `executor.map`: tasks may finish
in any order (`sched` is the completion order, an arbitrary permutation of the
batch indices), but `ThreadPoolExecutor.map` hands results back in input
order. -/

/-- Models `[chunks[i : i + batch_size] for i in range(0, len(chunks), batch_size)]`.
The fuel is the list length; one element at least is consumed per step, so the
fuel never runs out for `bs > 0` (the `bs = 0` case is cut off before the call
by the `ValueError` that `range(0, n, 0)` raises). -/
def batchesOfAux (bs : Nat) : Nat → List α → List (List α)
  | 0, _ => []
  | _, [] => []
  | fuel + 1, x :: xs => ((x :: xs).take bs) :: batchesOfAux bs fuel ((x :: xs).drop bs)

def batchesOf (bs : Nat) (xs : List α) : List (List α) :=
  if bs = 0 then [] else batchesOfAux bs xs.length xs

/-- Models `ThreadPoolExecutor.map(f, xs)` under a completion schedule `sched` (the
order in which the submitted tasks finish): results are collected per task
index and returned in input order, whatever the completion order. -/
def executorMap (f : α → β) (xs : List α) (sched : List Nat) : List β :=
  let completed := sched.filterMap fun j => (xs.get? j).map fun x => (j, f x)
  (List.range xs.length).filterMap fun i =>
    (completed.find? fun p => p.1 == i).map Prod.snd

/-- Models `BaseEmbedder.embed_chunks` (embedder.py lines 60-89).  `Except` carries
the `ValueError` that `range(0, len(chunks), 0)` raises for a zero batch
size. -/
def embed_chunks (embed : List String → List (List Float)) (chunks : List Chunk)
    (batch_size : Nat) (workers : Nat) (sched : List Nat) :
    Except PyErr (List (List Float)) :=
  if chunks.isEmpty then .ok []
  else if batch_size = 0 then .error .valueError
  else
    let batches := batchesOf batch_size chunks
    let embedBatch := fun (batch : List Chunk) => embed (batch.map Chunk.text)
    let results :=
      if workers > 1 ∧ batches.length > 1 then executorMap embedBatch batches sched
      else batches.map embedBatch
    .ok results.flatten

/-- Searching the completed-task list for index `i` finds exactly the result
of task `i`, as long as every scheduled index is in range and `i` was
scheduled. -/
theorem find_completed (f : α → β) (xs : List α) (i : Nat) :
    ∀ sched : List Nat, (∀ j ∈ sched, j < xs.length) → i ∈ sched →
      ((sched.filterMap fun j => (xs.get? j).map fun x => (j, f x)).find?
          fun p => p.1 == i) =
        (xs.get? i).map fun x => (i, f x) := by
  intro sched
  induction sched with
  | nil => intro _ hi; cases hi
  | cons j rest ih =>
    intro hrange hi
    have hj : j < xs.length := hrange j (List.mem_cons_self _ _)
    have hxj : xs.get? j = some (xs.get ⟨j, hj⟩) := List.get?_eq_get hj
    rw [List.filterMap_cons, hxj]
    simp only [Option.map_some']
    rw [List.find?_cons]
    by_cases hij : j = i
    · subst hij
      simp [List.getElem?_eq_getElem hj]
    · have hne : ((j, f (xs.get ⟨j, hj⟩)).1 == i) = false := by
        simp [hij]
      rw [hne]
      exact ih (fun k hk => hrange k (List.mem_cons_of_mem _ hk))
        (by rcases List.mem_cons.mp hi with h | h
            · exact absurd h.symm hij
            · exact h)

/-- Collecting `(xs.get? i).map g` over `i ∈ range xs.length` is `xs.map g`. -/
theorem filterMap_range_get (g : α → β) :
    ∀ xs : List α,
      ((List.range xs.length).filterMap fun i => (xs.get? i).map g) = xs.map g := by
  intro xs
  induction xs with
  | nil => rfl
  | cons x rest ih =>
    rw [List.length_cons, List.range_succ_eq_map, List.filterMap_cons, List.filterMap_map]
    simp only [List.get?_cons_zero, Option.map_some']
    rw [List.map_cons]
    congr 1

/-- Running `executor.map` under any completion schedule that runs each batch exactly
once returns exactly the sequential `map`. -/
theorem executorMap_perm (f : α → β) (xs : List α) (sched : List Nat)
    (hs : sched.Perm (List.range xs.length)) :
    executorMap f xs sched = xs.map f := by
  unfold executorMap
  have hmem : ∀ j, j ∈ sched ↔ j < xs.length := fun j => by
    rw [hs.mem_iff, List.mem_range]
  have hstep : ∀ i ∈ List.range xs.length,
      (((sched.filterMap fun j => (xs.get? j).map fun x => (j, f x)).find?
          fun p => p.1 == i).map Prod.snd) =
        (xs.get? i).map f := by
    intro i hi
    rw [find_completed f xs i sched (fun j hj => (hmem j).mp hj)
      ((hmem i).mpr (List.mem_range.mp hi))]
    cases xs.get? i with
    | none => rfl
    | some x => rfl
  rw [List.filterMap_congr hstep]
  exact filterMap_range_get f xs

/-- C4: for every chunk list, batch size and schedule, `embed_chunks` with
`workers > 1` returns the same vector sequence, in the same order, as with
`workers = 1`: the thread pool never permutes the chunk-to-vector
association. -/
theorem embed_chunks_order_preserving (embed : List String → List (List Float))
    (chunks : List Chunk) (batch_size workers : Nat) (sched : List Nat)
    (hs : sched.Perm (List.range (batchesOf batch_size chunks).length)) :
    embed_chunks embed chunks batch_size workers sched =
      embed_chunks embed chunks batch_size 1 sched := by
  unfold embed_chunks
  by_cases hempty : chunks.isEmpty
  · rw [if_pos hempty, if_pos hempty]
  · rw [if_neg hempty, if_neg hempty]
    by_cases hbs : batch_size = 0
    · rw [if_pos hbs, if_pos hbs]
    · rw [if_neg hbs, if_neg hbs]
      dsimp only
      by_cases hw : workers > 1 ∧ (batchesOf batch_size chunks).length > 1
      · rw [if_pos hw, if_neg (by omega), executorMap_perm _ _ sched hs]
      · rw [if_neg hw, if_neg (by omega)]

/-- C4 witness: three single-chunk batches dispatched under the completion
order `[2, 0, 1]` give the sequential result. -/
theorem embed_chunks_order_preserving_witness :
    embed_chunks (fun ts => ts.map fun _ => []) [⟨"a", ⟨"s", "d", 0, 3⟩⟩,
        ⟨"b", ⟨"s", "d", 1, 3⟩⟩, ⟨"c", ⟨"s", "d", 2, 3⟩⟩] 1 2 [2, 0, 1] =
      embed_chunks (fun ts => ts.map fun _ => []) [⟨"a", ⟨"s", "d", 0, 3⟩⟩,
        ⟨"b", ⟨"s", "d", 1, 3⟩⟩, ⟨"c", ⟨"s", "d", 2, 3⟩⟩] 1 1 [2, 0, 1] :=
  embed_chunks_order_preserving (fun ts => ts.map fun _ => [])
    [⟨"a", ⟨"s", "d", 0, 3⟩⟩, ⟨"b", ⟨"s", "d", 1, 3⟩⟩, ⟨"c", ⟨"s", "d", 2, 3⟩⟩]
    1 2 [2, 0, 1] (by decide)

/-! ### Backend retry policy (`OpenAIEmbedder.embed` / `LocalEmbedder.embed`)

`OpenAIEmbedder.embed` is decorated with the tenacity wrapper
`@retry(retry=retry_if_exception_type((RateLimitError, APIConnectionError,
APITimeoutError)), wait=wait_exponential(multiplier=1, min=2, max=60),
stop=stop_after_attempt(5), reraise=True)`.  The network call is external:
`call n` is the outcome of the n-th attempt (attempts are numbered from 1).
The model returns the sleeps performed and the final outcome. -/

/-- The OpenAI SDK error classes appearing in the retry filter, plus a
representative non-retried class. -/
inductive OpenAIErr
  | rateLimitError
  | apiConnectionError
  | apiTimeoutError
  | apiStatusError
  deriving Repr, DecidableEq

/-- Models `retry_if_exception_type((RateLimitError, APIConnectionError,
APITimeoutError))`. -/
def retryableOpenAI : OpenAIErr → Bool
  | .rateLimitError => true
  | .apiConnectionError => true
  | .apiTimeoutError => true
  | .apiStatusError => false

/-- Models `wait_exponential(multiplier=1, min=2, max=60)`: the sleep after the n-th
failed attempt, an exponential clamped between 2 and 60. -/
def waitExponential (n : Nat) : Nat := max 2 (min (2 ^ (n - 1)) 60)

/-- The tenacity retry loop: attempt `n`, with `left` further attempts
permitted (`left = maxAttempts - n`).  A retryable error with attempts left
sleeps `waitExponential n` and retries; otherwise `reraise=True` re-raises the
error unchanged. -/
def retryRun (call : Nat → Except OpenAIErr α) : Nat → Nat → List Nat × Except OpenAIErr α
  | n, 0 =>
    match call n with
    | .ok v => ([], .ok v)
    | .error e => ([], .error e)
  | n, left2 + 1 =>
    match call n with
    | .ok v => ([], .ok v)
    | .error e =>
      if retryableOpenAI e then
        let r := retryRun call (n + 1) left2
        (waitExponential n :: r.1, r.2)
      else ([], .error e)

/-- Models `OpenAIEmbedder.embed` (embedder.py lines 111-122): the retried call with
`stop_after_attempt(5)`, starting at attempt 1 (4 attempts remain after it). -/
def openai_embed (call : Nat → Except OpenAIErr (List (List Float))) :
    List Nat × Except OpenAIErr (List (List Float)) :=
  retryRun call 1 (5 - 1)

/-- Models `LocalEmbedder.embed` (embedder.py lines 92-101): a single
`model.encode` call, no retry wrapper, no sleeps, errors propagate. -/
def local_embed (call : Nat → Except ε α) : List Nat × Except ε α :=
  ([], call 1)

/-- Unfolding step of `retryRun` with attempts left. -/
theorem retryRun_succ (call : Nat → Except OpenAIErr α) (n left2 : Nat) :
    retryRun call n (left2 + 1) =
      match call n with
      | .ok v => ([], .ok v)
      | .error e =>
        if retryableOpenAI e then
          (waitExponential n :: (retryRun call (n + 1) left2).1,
            (retryRun call (n + 1) left2).2)
        else ([], .error e) := rfl

/-- Unfolding step of `retryRun` on the last permitted attempt. -/
theorem retryRun_zero (call : Nat → Except OpenAIErr α) (n : Nat) :
    retryRun call n 0 =
      match call n with
      | .ok v => ([], .ok v)
      | .error e => ([], .error e) := rfl

/-- When every attempt fails with the same retryable error, the loop performs
one attempt plus `left` retries, sleeping the clamped exponential each time,
and re-raises the error itself. -/
theorem retryRun_all_fail (call : Nat → Except OpenAIErr α) (e : OpenAIErr)
    (hr : retryableOpenAI e = true) (hcall : ∀ k, call k = .error e) :
    ∀ left n, retryRun call n left =
      ((List.range left).map fun i => waitExponential (n + i), .error e) := by
  intro left
  induction left with
  | zero =>
    intro n
    rw [retryRun_zero, hcall n]
    rfl
  | succ left2 ih =>
    intro n
    rw [retryRun_succ, hcall n]
    dsimp only
    rw [if_pos (by rw [hr]), ih (n + 1)]
    have htail : (List.range left2).map (fun i => waitExponential (n + 1 + i)) =
        (List.range left2).map ((fun i => waitExponential (n + i)) ∘ Nat.succ) := by
      refine List.map_congr_left fun i _ => ?_
      simp only [Function.comp_apply]
      congr 1
      omega
    rw [List.range_succ_eq_map, List.map_cons, List.map_map, ← htail]
    rfl

/-- C7: the remote backend retries only rate-limit / connection / timeout
errors, sleeping the exponential backoff clamped to `[2, 60]` (so 2, 2, 4, 8
across the five permitted attempts), and after the fifth failed attempt
re-raises the error unchanged; a non-retryable error and a first-attempt
success return at once with no sleep; the local backend performs exactly one
call and never retries. -/
theorem embed_retry_policy :
    (∀ e, retryableOpenAI e = true ↔
      e = OpenAIErr.rateLimitError ∨ e = OpenAIErr.apiConnectionError ∨
        e = OpenAIErr.apiTimeoutError) ∧
    (∀ n, 2 ≤ waitExponential n ∧ waitExponential n ≤ 60) ∧
    (∀ (call : Nat → Except OpenAIErr (List (List Float))) e,
      retryableOpenAI e = true → (∀ k, call k = .error e) →
      openai_embed call = ([2, 2, 4, 8], .error e)) ∧
    (∀ (call : Nat → Except OpenAIErr (List (List Float))) e,
      retryableOpenAI e = false → call 1 = .error e →
      openai_embed call = ([], .error e)) ∧
    (∀ (call : Nat → Except OpenAIErr (List (List Float))) v,
      call 1 = .ok v → openai_embed call = ([], .ok v)) ∧
    (∀ (call : Nat → Except OpenAIErr (List (List Float))) e v,
      retryableOpenAI e = true → call 1 = .error e → call 2 = .ok v →
      openai_embed call = ([2], .ok v)) ∧
    (∀ (ε α : Type) (call : Nat → Except ε α), local_embed call = ([], call 1)) := by
  refine ⟨?_, ?_, ?_, ?_, ?_, ?_, ?_⟩
  · intro e
    cases e <;> simp [retryableOpenAI]
  · intro n
    unfold waitExponential
    constructor
    · exact le_max_left _ _
    · have h1 : min (2 ^ (n - 1)) 60 ≤ 60 := min_le_right _ _
      omega
  · intro call e hr hcall
    have h := retryRun_all_fail call e hr hcall 4 1
    unfold openai_embed
    show retryRun call 1 4 = ([2, 2, 4, 8], .error e)
    rw [h]
    rfl
  · intro call e hr hcall
    unfold openai_embed
    show retryRun call 1 (3 + 1) = ([], .error e)
    rw [retryRun_succ, hcall]
    dsimp only
    rw [if_neg (by rw [hr]; exact Bool.false_ne_true)]
  · intro call v hcall
    unfold openai_embed
    show retryRun call 1 (3 + 1) = ([], .ok v)
    rw [retryRun_succ, hcall]
  · intro call e v hr h1 h2
    unfold openai_embed
    show retryRun call 1 (3 + 1) = ([2], .ok v)
    rw [retryRun_succ, h1]
    dsimp only
    rw [if_pos (by rw [hr])]
    have hstep : retryRun call (1 + 1) 3 = ([], .ok v) := by
      show retryRun call (1 + 1) (2 + 1) = ([], .ok v)
      rw [retryRun_succ, h2]
    rw [hstep]
    rfl
  · intro ε α call
    rfl

/-- C7 witness: concrete calls exercising the exhausted-retry, non-retryable,
and no-retry conjuncts. -/
theorem embed_retry_policy_witness :
    openai_embed (fun _ => .error .rateLimitError) = ([2, 2, 4, 8], .error .rateLimitError) ∧
    openai_embed (fun _ => .error .apiStatusError) = ([], .error .apiStatusError) ∧
    openai_embed (fun _ => .ok []) = ([], .ok []) ∧
    local_embed (fun _ => (.error () : Except Unit Nat)) = ([], .error ()) :=
  ⟨embed_retry_policy.2.2.1 (fun _ => .error .rateLimitError) .rateLimitError
      (by decide) (fun _ => rfl),
    embed_retry_policy.2.2.2.1 (fun _ => .error .apiStatusError) .apiStatusError
      (by decide) rfl,
    embed_retry_policy.2.2.2.2.1 (fun _ => .ok []) [] rfl,
    embed_retry_policy.2.2.2.2.2.2 Unit Nat (fun _ => .error ())⟩

/-! ## Vector store (`knomi/store/qdrant.py`)

The Qdrant client is an external service; its point storage is modelled as a
list of points with insert-or-overwrite-by-id semantics.  `uuid.uuid5` is an
external deterministic digest, a `String → String` parameter. -/

/-- The payload written by `upsert`: `{**c.metadata, "text": c.text}`. -/
structure Payload where
  source : String
  doc_id : String
  chunk_index : Nat
  total_chunks : Nat
  text : String
  deriving Repr, DecidableEq

/-- Models `PointStruct(id=..., vector=..., payload=...)`. -/
structure PointStruct where
  id : String
  vector : List Float
  payload : Payload
  deriving Repr

/-- The points of the collection held by the store. -/
structure QdrantState where
  points : List PointStruct
  deriving Repr

/-- Models `zip(chunks, vectors, strict=True)`: `none` is the `ValueError` raised as
soon as the two lists have different lengths. -/
def strictZip : List α → List β → Option (List (α × β))
  | [], [] => some []
  | x :: xs, y :: ys => (strictZip xs ys).map ((x, y) :: ·)
  | _, _ => none

/-- The point built for one chunk/vector pair:
`id = str(uuid.uuid5(NAMESPACE_DNS, doc_id + str(chunk_index)))`. -/
def mkPoint (uuid5 : String → String) (cv : Chunk × List Float) : PointStruct :=
  ⟨uuid5 (cv.1.metadata.doc_id ++ Nat.repr cv.1.metadata.chunk_index), cv.2,
    ⟨cv.1.metadata.source, cv.1.metadata.doc_id, cv.1.metadata.chunk_index,
      cv.1.metadata.total_chunks, cv.1.text⟩⟩

/-- Models `client.upsert`: insert each point, overwriting any stored point with the
same id (external Qdrant semantics). -/
def clientUpsert (points : List PointStruct) (new : List PointStruct) : List PointStruct :=
  new.foldl (fun acc p =>
    if acc.any (fun q => q.id == p.id) then
      acc.map fun q => if q.id == p.id then p else q
    else acc ++ [p]) points

/-- Models `QdrantStore.upsert` (qdrant.py lines 57-73).  The point list is built —
raising `ValueError` through the strict zip — before anything is sent to the
client, so on that error the collection is untouched; the surrounding tenacity
wrapper only re-runs the same pure computation and re-raises.  Returns the
resulting state together with the exception, if any. -/
def QdrantStore.upsert (uuid5 : String → String) (st : QdrantState)
    (chunks : List Chunk) (vectors : List (List Float)) :
    QdrantState × Option PyErr :=
  match strictZip chunks vectors with
  | none => (st, some .valueError)
  | some pairs => (⟨clientUpsert st.points (pairs.map (mkPoint uuid5))⟩, none)

/-- The strict zip succeeds exactly on equal lengths, and then is `List.zip`. -/
theorem strictZip_eq (xs : List α) :
    ∀ ys : List β,
      (xs.length ≠ ys.length → strictZip xs ys = none) ∧
      (xs.length = ys.length → strictZip xs ys = some (xs.zip ys)) := by
  induction xs with
  | nil =>
    intro ys
    cases ys with
    | nil => exact ⟨fun h => absurd rfl h, fun _ => rfl⟩
    | cons y ys => exact ⟨fun _ => rfl, fun h => absurd h (by simp)⟩
  | cons x xs ih =>
    intro ys
    cases ys with
    | nil => exact ⟨fun _ => rfl, fun h => absurd h (by simp)⟩
    | cons y ys =>
      constructor
      · intro h
        have hne : xs.length ≠ ys.length := by
          simpa using h
        show (strictZip xs ys).map ((x, y) :: ·) = none
        rw [(ih ys).1 hne]
        rfl
      · intro h
        have heq : xs.length = ys.length := by
          simpa using h
        show (strictZip xs ys).map ((x, y) :: ·) = some ((x, y) :: xs.zip ys)
        rw [(ih ys).2 heq]
        rfl

/-- C10: `QdrantStore.upsert` raises `ValueError` whenever the chunk and
vector lists have different lengths, leaving the collection unchanged; on
equal lengths it writes one point per pair whose identifier is the uuid5 of
`doc_id` concatenated with the decimal `chunk_index` — a deterministic
function of `(doc_id, chunk_index)`. -/
theorem qdrant_upsert_strict (uuid5 : String → String) (st : QdrantState)
    (chunks : List Chunk) (vectors : List (List Float)) :
    (chunks.length ≠ vectors.length →
      QdrantStore.upsert uuid5 st chunks vectors = (st, some .valueError)) ∧
    (chunks.length = vectors.length →
      QdrantStore.upsert uuid5 st chunks vectors =
        (⟨clientUpsert st.points ((chunks.zip vectors).map (mkPoint uuid5))⟩, none) ∧
      ∀ cv ∈ chunks.zip vectors,
        (mkPoint uuid5 cv).id =
          uuid5 (cv.1.metadata.doc_id ++ Nat.repr cv.1.metadata.chunk_index)) := by
  constructor
  · intro h
    unfold QdrantStore.upsert
    rw [(strictZip_eq chunks vectors).1 h]
  · intro h
    refine ⟨?_, fun cv _ => rfl⟩
    unfold QdrantStore.upsert
    rw [(strictZip_eq chunks vectors).2 h]

/-- C10 witness: a one-chunk call with no vectors raises and leaves the empty
collection unchanged; with one vector it writes the deterministic id. -/
theorem qdrant_upsert_strict_witness :
    QdrantStore.upsert (fun s => s) ⟨[]⟩ [⟨"t", ⟨"s", "d", 0, 1⟩⟩] [] =
      (⟨[]⟩, some .valueError) ∧
    QdrantStore.upsert (fun s => s) ⟨[]⟩ [⟨"t", ⟨"s", "d", 0, 1⟩⟩] [[]] =
      (⟨clientUpsert [] (([⟨"t", ⟨"s", "d", 0, 1⟩⟩].zip [[]]).map (mkPoint fun s => s))⟩,
        none) :=
  ⟨(qdrant_upsert_strict (fun s => s) ⟨[]⟩ [⟨"t", ⟨"s", "d", 0, 1⟩⟩] []).1 (by decide),
    ((qdrant_upsert_strict (fun s => s) ⟨[]⟩ [⟨"t", ⟨"s", "d", 0, 1⟩⟩] [[]]).2 rfl).1⟩

/-! ## Scanner and store reads (`knomi/ingest/scanner.py`, `knomi/store/qdrant.py`)

A directory is a list of `(relative path, content)` pairs of regular files
(symlinks and directories are not represented); SHA-256 is an external digest
passed as a parameter. -/

/-- Models `SUPPORTED_EXTENSIONS` from `scanner.py`. -/
def SUPPORTED_EXTENSIONS : List String := [".pdf", ".md", ".txt", ".docx", ".html"]

/-- Lexicographic code-point order on strings (the order of the sorted
filesystem walk). -/
def charListLe : List Char → List Char → Bool
  | [], _ => true
  | _ :: _, [] => false
  | c :: cs, d :: ds =>
    if c.toNat < d.toNat then true
    else if d.toNat < c.toNat then false
    else charListLe cs ds

def pathLe (a b : String) : Bool := charListLe a.toList b.toList

def insertByPath (x : String × String) : List (String × String) → List (String × String)
  | [] => [x]
  | y :: ys => if pathLe x.1 y.1 then x :: y :: ys else y :: insertByPath x ys

/-- Models `sorted(root.rglob("*"))`: the files of the tree in path order. -/
def sortByPath : List (String × String) → List (String × String)
  | [] => []
  | x :: xs => insertByPath x (sortByPath xs)

/-- Models `ScannedFile` from `scanner.py`. -/
structure ScannedFile where
  path : String
  sha256 : String
  size_bytes : Nat
  deriving Repr, DecidableEq

/-- Models `scan` from `scanner.py`: sorted walk, extension whitelist matched on the
lowercased suffix, one digest per kept file. -/
def scan (sha : String → String) (dir : List (String × String)) : List ScannedFile :=
  (sortByPath dir).filterMap fun pc =>
    if lowerStr (pathSuffix pc.1) ∈ SUPPORTED_EXTENSIONS then
      some ⟨pc.1, sha pc.2, pc.2.length⟩
    else none

/-- Models `QdrantStore.has_document`: `count(filter doc_id).count > 0`. -/
def QdrantStore.has_document (st : QdrantState) (doc_id : String) : Bool :=
  decide (0 < (st.points.filter fun p => p.payload.doc_id == doc_id).length)

/-- Models `QdrantStore.get_source`: `scroll(filter doc_id, limit=1)` — the source of
the first stored point of the document, `None` when there is none. -/
def QdrantStore.get_source (st : QdrantState) (doc_id : String) : Option String :=
  match st.points.filter fun p => p.payload.doc_id == doc_id with
  | [] => none
  | r :: _ => some r.payload.source

/-- Models `QdrantStore.update_source`: `set_payload source` on every point of the
document. -/
def QdrantStore.update_source (st : QdrantState) (doc_id new_source : String) : QdrantState :=
  ⟨st.points.map fun p =>
    if p.payload.doc_id == doc_id then
      { p with payload := { p.payload with source := new_source } }
    else p⟩

/-! ## Configuration and pipeline (`knomi/config.py`, `knomi/ingest/pipeline.py`) -/

/-- Models `Config` from `config.py` lines 9-52: exactly the declared settings
fields, with their defaults.  (Resolution from CLI/env/.env is external.) -/
structure Config where
  source_dir : String := "."
  chunk_size : Nat := 512
  chunk_overlap : Nat := 64
  embedding_model : String := "text-embedding-3-small"
  embedding_dim : Nat := 1536
  embedding_batch_size : Nat := 64
  db_url : String := "http://localhost:6333"
  collection : String := "knomi"
  serve_host : String := "0.0.0.0"
  serve_port : Nat := 8080
  top_k : Nat := 5
  deriving Repr, DecidableEq

/-- The attribute read `config.embedding_workers` performed at
pipeline.py line 104.  `Config` declares no `embedding_workers` field, and a
pydantic model raises `AttributeError` on an undeclared attribute (undeclared
constructor keywords are not kept: the model does not set `extra="allow"`),
so the lookup yields no value. -/
def Config.embeddingWorkersAttr (_ : Config) : Option Nat := none

/-- Models `PipelineResult` from `pipeline.py`. -/
structure PipelineResult where
  total_files : Nat := 0
  skipped_files : Nat := 0
  moved_files : Nat := 0
  failed_files : List String := []
  total_chunks : Nat := 0
  total_vectors : Nat := 0
  deriving Repr, DecidableEq

/-- The externally observable calls one file processing step makes (the
progress callback and logging are pure side channels and are not modelled). -/
inductive Event
  | parseCall (path : String)
  | chunkCall (path : String)
  | updateSourceCall (doc_id source : String)
  | upsertCall (doc_id : String) (nchunks : Nat)
  deriving Repr, DecidableEq

/-- One iteration of the `for scanned in scan(...)` loop of `run_pipeline`
(pipeline.py lines 61-110): dedup check with move detection, parse guarded by
`try/except`, empty-text failure, chunk, embed, upsert.  The embed step first
evaluates the call arguments `config.embedding_batch_size` and
`config.embedding_workers`; the second read raises `AttributeError` (see
`Config.embeddingWorkersAttr`).  A `none` from `chunk` (the diverging loop) is
reported as `nonTermination`.  Returns the store, the updated result and the
events of this file, or the exception aborting the run. -/
def processFile (cfg : Config) (enc : String → List Nat) (dec : List Nat → String)
    (embed : List String → List (List Float)) (uuid5 : String → String)
    (sched : List Nat) (parseFn : String → Except PyErr String)
    (st : QdrantState) (res : PipelineResult) (scanned : ScannedFile) :
    Except PyErr (QdrantState × PipelineResult × List Event) :=
  let res1 := { res with total_files := res.total_files + 1 }
  if QdrantStore.has_document st scanned.sha256 then
    match QdrantStore.get_source st scanned.sha256 with
    | some s =>
      if s ≠ "" ∧ s ≠ scanned.path then
        .ok (QdrantStore.update_source st scanned.sha256 scanned.path,
          { res1 with moved_files := res1.moved_files + 1, skipped_files := res1.skipped_files + 1 },
          [.updateSourceCall scanned.sha256 scanned.path])
      else
        .ok (st, { res1 with skipped_files := res1.skipped_files + 1 }, [])
    | none =>
      .ok (st, { res1 with skipped_files := res1.skipped_files + 1 }, [])
  else
    match parseFn scanned.path with
    | .error _ =>
      .ok (st, { res1 with failed_files := res1.failed_files ++ [scanned.path] },
        [.parseCall scanned.path])
    | .ok text =>
      if text = "" then
        .ok (st, { res1 with failed_files := res1.failed_files ++ [scanned.path] },
          [.parseCall scanned.path])
      else
        match chunk enc dec text scanned.path scanned.sha256 cfg.chunk_size cfg.chunk_overlap with
        | none => .error .nonTermination
        | some chunks =>
          match cfg.embeddingWorkersAttr with
          | none => .error .attributeError
          | some workers =>
            match embed_chunks embed chunks cfg.embedding_batch_size workers sched with
            | .error e => .error e
            | .ok vectors =>
              match QdrantStore.upsert uuid5 st chunks vectors with
              | (_, some e) => .error e
              | (st2, none) =>
                .ok (st2,
                  { res1 with total_chunks := res1.total_chunks + chunks.length, total_vectors := res1.total_vectors + vectors.length },
                  [.parseCall scanned.path, .chunkCall scanned.path,
                    .upsertCall scanned.sha256 chunks.length])

/-- The file loop of `run_pipeline`: sequential, stopping at the first
uncaught exception. -/
def runFiles (cfg : Config) (enc : String → List Nat) (dec : List Nat → String)
    (embed : List String → List (List Float)) (uuid5 : String → String)
    (sched : List Nat) (parseFn : String → Except PyErr String) :
    List ScannedFile → QdrantState → PipelineResult → List Event →
      Except PyErr (QdrantState × PipelineResult × List Event)
  | [], st, res, evs => .ok (st, res, evs)
  | f :: rest, st, res, evs =>
    match processFile cfg enc dec embed uuid5 sched parseFn st res f with
    | .error e => .error e
    | .ok (st2, res2, evs2) =>
      runFiles cfg enc dec embed uuid5 sched parseFn rest st2 res2 (evs ++ evs2)

/-- Models `run_pipeline` from `pipeline.py`: process the scanned files in order,
starting from a fresh `PipelineResult`. -/
def run_pipeline (cfg : Config) (enc : String → List Nat) (dec : List Nat → String)
    (embed : List String → List (List Float)) (uuid5 : String → String)
    (sched : List Nat) (parseFn : String → Except PyErr String)
    (files : List ScannedFile) (st : QdrantState) :
    Except PyErr (QdrantState × PipelineResult × List Event) :=
  runFiles cfg enc dec embed uuid5 sched parseFn files st {} []

/-- The filesystem seen by the parser for a model directory: listed files are
valid UTF-8, everything else is missing. -/
def fsOfDir (dir : List (String × String)) : FileSystem := fun p =>
  match dir.find? fun pc => pc.1 == p with
  | some pc => PyFile.utf8 pc.2
  | none => PyFile.missing

/-- The concrete scenario directory of the specification. -/
def sampleDir : List (String × String) :=
  [("sample.txt", "Hello world. This is a test document."),
    ("subdir/nested.txt", "Nested document content.")]

/-- C1 (refuted — code bug): on the scenario directory with an empty store and
the default configuration the run does not return normally.  The first file
reaches the embed step, whose argument evaluation reads
`config.embedding_workers` although `Config` declares no such field, and the
whole run aborts with `AttributeError`; `total_files == 2, total_chunks == 2,
failed_files == []` is never produced. -/
theorem run_pipeline_scenario_attribute_error :
    run_pipeline {} (fun s => s.toList.map Char.toNat)
      (fun l => (l.map Char.ofNat).asString)
      (fun ts => ts.map fun _ => []) (fun s => s) []
      (parse (fsOfDir sampleDir) (fun _ => .error ()) (fun _ => .error ())
        (fun _ => .error ()))
      (scan (fun c => String.append "sha-" c) sampleDir) ⟨[]⟩ =
      .error .attributeError := by
  rfl

/-- C5 counterexample data: the store holds document hash `"h"` with an empty
stored source, so `get_source` returns `some ""` — which differs from the scan
path but fails the truthiness guard
`if stored_source and stored_source != str(scanned.path)`. -/
def emptySourceStore : QdrantState := ⟨[⟨"p1", [], ⟨"", "h", 0, 1, "t"⟩⟩]⟩

/-- C5 counterexample: the stored source (`""`) differs from the current path,
yet the file is only skipped: no `update_source` call is made and
`moved_files` stays 0 — refuting the claim as stated. -/
theorem processFile_move_counterexample :
    QdrantStore.has_document emptySourceStore "h" = true ∧
    QdrantStore.get_source emptySourceStore "h" = some "" ∧
    ("" : String) ≠ "doc.txt" ∧
    processFile {} (fun s => s.toList.map Char.toNat) (fun l => (l.map Char.ofNat).asString)
      (fun ts => ts.map fun _ => []) (fun s => s) [] (fun _ => .ok "x")
      emptySourceStore {} ⟨"doc.txt", "h", 1⟩ =
      .ok (emptySourceStore, { total_files := 1, skipped_files := 1 }, []) :=
  ⟨rfl, rfl, by decide, rfl⟩

/-- C5 (amended): for a scanned file whose hash is already in the store, the
orchestrator increments `skipped_files` and performs no parse, chunk, embed or
upsert; and exactly when `get_source` returns a non-empty stored source
different from the current scan path, it calls `update_source` with the new
path and increments `moved_files`. -/
theorem processFile_dedup_skip (cfg : Config) (enc : String → List Nat)
    (dec : List Nat → String) (embed : List String → List (List Float))
    (uuid5 : String → String) (sched : List Nat)
    (parseFn : String → Except PyErr String) (st : QdrantState)
    (res : PipelineResult) (f : ScannedFile)
    (h : QdrantStore.has_document st f.sha256 = true) :
    ∃ st2 res2 evs,
      processFile cfg enc dec embed uuid5 sched parseFn st res f = .ok (st2, res2, evs) ∧
      res2.total_files = res.total_files + 1 ∧
      res2.skipped_files = res.skipped_files + 1 ∧
      res2.failed_files = res.failed_files ∧
      res2.total_chunks = res.total_chunks ∧
      res2.total_vectors = res.total_vectors ∧
      (∀ e ∈ evs, ∃ d s2, e = Event.updateSourceCall d s2) ∧
      ((∃ s2, QdrantStore.get_source st f.sha256 = some s2 ∧ s2 ≠ "" ∧ s2 ≠ f.path) →
        res2.moved_files = res.moved_files + 1 ∧
        evs = [Event.updateSourceCall f.sha256 f.path] ∧
        st2 = QdrantStore.update_source st f.sha256 f.path) ∧
      ((¬ ∃ s2, QdrantStore.get_source st f.sha256 = some s2 ∧ s2 ≠ "" ∧ s2 ≠ f.path) →
        res2.moved_files = res.moved_files ∧ evs = [] ∧ st2 = st) := by
  unfold processFile
  dsimp only
  rw [if_pos h]
  cases hgs : QdrantStore.get_source st f.sha256 with
  | none =>
    dsimp only
    refine ⟨st, _, [], rfl, by simp, by simp, by simp, by simp, by simp, by simp, ?_, ?_⟩
    · rintro ⟨s2, hs2, -, -⟩
      exact Option.noConfusion hs2
    · intro _
      exact ⟨by simp, rfl, rfl⟩
  | some s =>
    dsimp only
    by_cases hc : s ≠ "" ∧ s ≠ f.path
    · rw [if_pos hc]
      refine ⟨_, _, _, rfl, by simp, by simp, by simp, by simp, by simp, ?_, ?_, ?_⟩
      · rintro e he
        simp only [List.mem_singleton] at he
        exact ⟨f.sha256, f.path, he⟩
      · intro _
        exact ⟨by simp, rfl, rfl⟩
      · intro hno
        refine absurd ⟨s, rfl, hc.1, hc.2⟩ hno
    · rw [if_neg hc]
      refine ⟨st, _, [], rfl, by simp, by simp, by simp, by simp, by simp, by simp, ?_, ?_⟩
      · rintro ⟨s2, hs2, h1, h2⟩
        injection hs2 with hs3
        subst hs3
        exact (hc ⟨h1, h2⟩).elim
      · intro _
        exact ⟨by simp, rfl, rfl⟩

/-- C5 witness data: the stored source is a real old path. -/
def movedStore : QdrantState := ⟨[⟨"p1", [], ⟨"old.txt", "h", 0, 1, "t"⟩⟩]⟩

/-- C5 witness: the amended theorem applied to a store whose recorded source
is `"old.txt"` while the file is rescanned at `"new.txt"`. -/
theorem processFile_dedup_skip_witness :
    ∃ st2 res2 evs,
      processFile {} (fun s => s.toList.map Char.toNat) (fun l => (l.map Char.ofNat).asString)
        (fun ts => ts.map fun _ => []) (fun s => s) [] (fun _ => .ok "x")
        movedStore {} ⟨"new.txt", "h", 1⟩ = .ok (st2, res2, evs) ∧
      res2.total_files = 1 ∧
      res2.skipped_files = 1 ∧
      res2.failed_files = [] ∧
      res2.total_chunks = 0 ∧
      res2.total_vectors = 0 ∧
      (∀ e ∈ evs, ∃ d s2, e = Event.updateSourceCall d s2) ∧
      ((∃ s2, QdrantStore.get_source movedStore "h" = some s2 ∧ s2 ≠ "" ∧ s2 ≠ "new.txt") →
        res2.moved_files = 1 ∧
        evs = [Event.updateSourceCall "h" "new.txt"] ∧
        st2 = QdrantStore.update_source movedStore "h" "new.txt") ∧
      ((¬ ∃ s2, QdrantStore.get_source movedStore "h" = some s2 ∧ s2 ≠ "" ∧ s2 ≠ "new.txt") →
        res2.moved_files = 0 ∧ evs = [] ∧ st2 = movedStore) :=
  processFile_dedup_skip {} (fun s => s.toList.map Char.toNat)
    (fun l => (l.map Char.ofNat).asString) (fun ts => ts.map fun _ => [])
    (fun s => s) [] (fun _ => .ok "x") movedStore {} ⟨"new.txt", "h", 1⟩ rfl

/-- The upsert calls recorded in an event trace: the number of successfully
indexed files. -/
def countUpserts (evs : List Event) : Nat :=
  (evs.filter fun e => match e with
    | Event.upsertCall _ _ => true
    | _ => false).length

theorem countUpserts_append (a b : List Event) :
    countUpserts (a ++ b) = countUpserts a + countUpserts b := by
  simp [countUpserts, List.filter_append]

/-- Per-file accounting: a file iteration that returns (does not abort the
run) adds the file to exactly one bucket — skipped or failed or upserted —
keeps the moved increment bounded by the skipped increment, and leaves
`total_chunks` and `total_vectors` in step. -/
theorem processFile_ok_counts (cfg : Config) (enc : String → List Nat)
    (dec : List Nat → String) (embed : List String → List (List Float))
    (uuid5 : String → String) (sched : List Nat)
    (parseFn : String → Except PyErr String) (st : QdrantState)
    (res : PipelineResult) (f : ScannedFile)
    (out : QdrantState × PipelineResult × List Event)
    (h : processFile cfg enc dec embed uuid5 sched parseFn st res f = .ok out) :
    out.2.1.total_files = res.total_files + 1 ∧
    out.2.1.skipped_files + out.2.1.failed_files.length + countUpserts out.2.2
      = res.skipped_files + res.failed_files.length + 1 ∧
    out.2.1.moved_files + res.skipped_files ≤ res.moved_files + out.2.1.skipped_files ∧
    out.2.1.total_chunks = res.total_chunks ∧
    out.2.1.total_vectors = res.total_vectors := by
  unfold processFile at h
  dsimp only [Config.embeddingWorkersAttr] at h
  split at h
  all_goals try split at h
  all_goals try split at h
  all_goals try split at h
  all_goals
    first
      | exact Except.noConfusion h
      | (injection h with h2
         subst h2
         refine ⟨?_, ?_, ?_, ?_, ?_⟩ <;> simp [countUpserts, List.filter] <;> omega)

/-- The file loop preserves the bucket accounting. -/
theorem runFiles_ok_invariant (cfg : Config) (enc : String → List Nat)
    (dec : List Nat → String) (embed : List String → List (List Float))
    (uuid5 : String → String) (sched : List Nat)
    (parseFn : String → Except PyErr String) :
    ∀ (files : List ScannedFile) (st : QdrantState) (res : PipelineResult)
      (evs : List Event) (out : QdrantState × PipelineResult × List Event),
      runFiles cfg enc dec embed uuid5 sched parseFn files st res evs = .ok out →
      out.2.1.total_files + res.skipped_files + res.failed_files.length + countUpserts evs
        = res.total_files + out.2.1.skipped_files + out.2.1.failed_files.length
            + countUpserts out.2.2 ∧
      out.2.1.moved_files + res.skipped_files ≤ res.moved_files + out.2.1.skipped_files ∧
      out.2.1.total_chunks + res.total_vectors = res.total_chunks + out.2.1.total_vectors := by
  intro files
  induction files with
  | nil =>
    intro st res evs out h
    rw [runFiles] at h
    injection h with h2
    subst h2
    dsimp only
    omega
  | cons f rest ih =>
    intro st res evs out h
    rw [runFiles] at h
    cases hpf : processFile cfg enc dec embed uuid5 sched parseFn st res f with
    | error e =>
      rw [hpf] at h
      exact Except.noConfusion h
    | ok trip =>
      obtain ⟨st2, res2, evs2⟩ := trip
      rw [hpf] at h
      dsimp only at h
      have hc := processFile_ok_counts cfg enc dec embed uuid5 sched parseFn st res f
        (st2, res2, evs2) hpf
      have hi := ih st2 res2 (evs ++ evs2) out h
      dsimp only at hc hi
      rw [countUpserts_append] at hi
      refine ⟨?_, ?_, ?_⟩ <;> omega

/-- C6: at the end of every completed run, every scanned file sits in exactly
one bucket — skipped (moves included), failed, or upserted — so `total_files`
equals `skipped_files` plus the failed count plus the number of upserted
files; moreover `moved_files ≤ skipped_files` and
`total_chunks = total_vectors`. -/
theorem run_pipeline_buckets (cfg : Config) (enc : String → List Nat)
    (dec : List Nat → String) (embed : List String → List (List Float))
    (uuid5 : String → String) (sched : List Nat)
    (parseFn : String → Except PyErr String) (files : List ScannedFile)
    (st : QdrantState) (out : QdrantState × PipelineResult × List Event)
    (h : run_pipeline cfg enc dec embed uuid5 sched parseFn files st = .ok out) :
    out.2.1.total_files
      = out.2.1.skipped_files + out.2.1.failed_files.length + countUpserts out.2.2 ∧
    out.2.1.moved_files ≤ out.2.1.skipped_files ∧
    out.2.1.total_chunks = out.2.1.total_vectors := by
  unfold run_pipeline at h
  have hi := runFiles_ok_invariant cfg enc dec embed uuid5 sched parseFn files st {} [] out h
  have h0 : countUpserts [] = 0 := rfl
  rw [h0] at hi
  dsimp only at hi
  simp only [List.length_nil] at hi
  refine ⟨?_, ?_, ?_⟩ <;> omega

/-- C6 witness data: one file whose hash is already indexed at the same path,
so the run completes by skipping it. -/
def indexedStore : QdrantState := ⟨[⟨"p1", [], ⟨"doc.txt", "h", 0, 1, "t"⟩⟩]⟩

/-- C6 witness: the bucket equation evaluated on a concrete completed run
(one already-indexed file, skipped). -/
theorem run_pipeline_buckets_witness :
    ((indexedStore, ⟨1, 1, 0, [], 0, 0⟩, []) :
        QdrantState × PipelineResult × List Event).2.1.total_files
      = ((indexedStore, ⟨1, 1, 0, [], 0, 0⟩, []) :
          QdrantState × PipelineResult × List Event).2.1.skipped_files
        + ((indexedStore, ⟨1, 1, 0, [], 0, 0⟩, []) :
            QdrantState × PipelineResult × List Event).2.1.failed_files.length
        + countUpserts ((indexedStore, ⟨1, 1, 0, [], 0, 0⟩, []) :
            QdrantState × PipelineResult × List Event).2.2 ∧
    ((indexedStore, ⟨1, 1, 0, [], 0, 0⟩, []) :
        QdrantState × PipelineResult × List Event).2.1.moved_files
      ≤ ((indexedStore, ⟨1, 1, 0, [], 0, 0⟩, []) :
          QdrantState × PipelineResult × List Event).2.1.skipped_files ∧
    ((indexedStore, ⟨1, 1, 0, [], 0, 0⟩, []) :
        QdrantState × PipelineResult × List Event).2.1.total_chunks
      = ((indexedStore, ⟨1, 1, 0, [], 0, 0⟩, []) :
          QdrantState × PipelineResult × List Event).2.1.total_vectors :=
  run_pipeline_buckets {} (fun s => s.toList.map Char.toNat)
    (fun l => (l.map Char.ofNat).asString) (fun ts => ts.map fun _ => [])
    (fun s => s) [] (fun _ => .ok "x") [⟨"doc.txt", "h", 1⟩] indexedStore
    (indexedStore, ⟨1, 1, 0, [], 0, 0⟩, []) rfl

end Knomi
